import Mathlib

/-!
# Verification of the Spend-Guarded Payment Engine

Shallow embedding, in Lean 4, of the core components of the
`sparkbtcbot-proxy` repository, together with theorems settling the
spec claims about them.

The embedding translates the TypeScript (and embedded Lua) source into
pure Lean functions:

* `src/lib/budget.ts` — the Lua `RESERVE_SCRIPT` run by Redis `EVAL`
  becomes `reserveScript`, an atomic step on the per-(caller, day)
  counter; the TypeScript wrappers `reserveSpend` / `releaseSpend`
  become functions threading the counter value explicitly.
* `src/app/api/l402/route.ts` — the `waitForPreimage` polling loop,
  invoice decoding, and the post-payment branch of `POST` become
  functions over an abstract trace of wallet poll responses.
* `src/app/api/l402/status/route.ts` — the resume-polling loop of `GET`.
* `src/lib/leaves.ts` — stale-leaf detection and one-shot recovery.
* `src/lib/auth.ts` — `verifyAuth` over an explicit store-lookup result.
* The Redis hash holding cached L402 tokens (`cacheToken` /
  `getCachedToken` / `deleteCachedToken`) becomes a timed key-value
  state with explicit expiry, since the 24h TTL claim is about time.

Redis counters are modelled as `Int` (DECRBY can drive them negative);
times are `Nat` seconds; JavaScript string truthiness (`""` is falsy)
is modelled explicitly where the code relies on it.
-/

namespace SparkProxy

/-! ## Budget ledger (`src/lib/budget.ts`)

The counter state is the integer stored at the Redis key
`spark:daily_spend:<tokenId>:<day>`; a missing key reads as `0`
(the script's `tonumber(redis.call("GET", key) or "0")`), which we fold
into the caller passing the current value. All operations below act on
the counter of one fixed (caller, calendar day) pair. -/

/-- Reply array of the Lua `RESERVE_SCRIPT`: `[ok, spentOrNewTotal, reason]`.
Reason codes: 1 = tx too large, 2 = budget exceeded, 3 = invalid params. -/
structure ScriptReply where
  ok : Nat
  spent : Int
  reason : Nat
deriving Repr, DecidableEq

/-- One atomic execution of `RESERVE_SCRIPT` (src/lib/budget.ts lines 23-47)
on the counter value `current`. Returns the script reply together with the
counter value after the call (`INCRBY` on success, untouched otherwise).
The `EXPIRE` call only extends the key's TTL and does not change the value. -/
def reserveScript (current amount maxTx dailyLimit : Int) : ScriptReply × Int :=
  if amount ≤ 0 ∨ maxTx ≤ 0 ∨ dailyLimit ≤ 0 then
    (⟨0, 0, 3⟩, current)
  else if amount > maxTx then
    (⟨0, current, 1⟩, current)
  else if current + amount > dailyLimit then
    (⟨0, current, 2⟩, current)
  else
    (⟨1, current + amount, 0⟩, current + amount)

/-- Machine-readable failure kinds of `ReserveResult.code`. -/
inductive ReserveCode where
  | TRANSACTION_TOO_LARGE
  | BUDGET_EXCEEDED
  | INVALID_AMOUNT
deriving Repr, DecidableEq

/-- Result of `reserveSpend` (the `reason` string is determined by the
other fields and omitted). -/
structure ReserveResult where
  allowed : Bool
  dailySpent : Int
  dailyLimit : Int
  code : Option ReserveCode
deriving Repr, DecidableEq

/-- Per-caller budget parameters (`BudgetParams` minus the `tokenId`,
which only selects the Redis key / counter being acted on). -/
structure BudgetParams where
  maxTxSats : Int
  dailyBudgetSats : Int
deriving Repr, DecidableEq

/-- `reserveSpend` (src/lib/budget.ts lines 63-140) acting on the counter
`current` of the caller's (tokenId, today) key. The TypeScript
`Number.isInteger` checks are vacuous in the `Int` model, leaving the
positivity checks. Returns the `ReserveResult` and the new counter value. -/
def reserveSpend (amountSats : Int) (params : BudgetParams) (current : Int) :
    ReserveResult × Int :=
  if amountSats ≤ 0 then
    (⟨false, 0, params.dailyBudgetSats, some .INVALID_AMOUNT⟩, current)
  else if params.maxTxSats ≤ 0 then
    (⟨false, 0, params.dailyBudgetSats, some .INVALID_AMOUNT⟩, current)
  else if params.dailyBudgetSats ≤ 0 then
    (⟨false, 0, params.dailyBudgetSats, some .INVALID_AMOUNT⟩, current)
  else
    let r := reserveScript current amountSats params.maxTxSats params.dailyBudgetSats
    if r.1.ok = 1 then
      (⟨true, r.1.spent, params.dailyBudgetSats, none⟩, r.2)
    else if r.1.reason = 1 then
      (⟨false, r.1.spent, params.dailyBudgetSats, some .TRANSACTION_TOO_LARGE⟩, r.2)
    else if r.1.reason = 3 then
      (⟨false, 0, params.dailyBudgetSats, some .INVALID_AMOUNT⟩, r.2)
    else
      (⟨false, r.1.spent, params.dailyBudgetSats, some .BUDGET_EXCEEDED⟩, r.2)

/-- `releaseSpend` (src/lib/budget.ts lines 143-149): an unconditional
`DECRBY` on the caller's counter. -/
def releaseSpend (amountSats : Int) (current : Int) : Int :=
  current - amountSats

/-- Counter value after a sequence of atomic `RESERVE_SCRIPT` executions,
one per element of `amounts`, for the same caller and day. -/
def reserveAll (maxTx dailyLimit : Int) (amounts : List Int) (current : Int) : Int :=
  amounts.foldl (fun c a => (reserveScript c a maxTx dailyLimit).2) current

/-- Whether every reservation in the sequence is approved. -/
def reserveSeqAllowed (maxTx dailyLimit : Int) : List Int → Int → Bool
  | [], _ => true
  | a :: rest, c =>
    let r := reserveScript c a maxTx dailyLimit
    r.1.ok == 1 && reserveSeqAllowed maxTx dailyLimit rest r.2

/-- A single `RESERVE_SCRIPT` step never moves the counter above the
daily limit when it starts at or below it. -/
lemma reserveScript_state_le (maxTx dailyLimit c a : Int) (h : c ≤ dailyLimit) :
    (reserveScript c a maxTx dailyLimit).2 ≤ dailyLimit := by
  unfold reserveScript
  split_ifs <;> simp <;> omega

/-- A rejected `RESERVE_SCRIPT` step leaves the counter unchanged. -/
lemma reserveScript_reject_unchanged (maxTx dailyLimit c a : Int)
    (h : (reserveScript c a maxTx dailyLimit).1.ok ≠ 1) :
    (reserveScript c a maxTx dailyLimit).2 = c := by
  unfold reserveScript at *
  split_ifs at * <;> simp_all

/-- C1: every sequence of atomic reserve steps for one caller and day keeps
the running total at or below the daily cap: an attempt with
`current + amount > dailyCap` is rejected with the BudgetExceeded reply and
leaves the counter unchanged; starting at or below the cap, the counter
stays at or below the cap after any sequence of reserve steps; and two
attempts that each individually fit the budget but not both yield exactly
one success and one rejection. -/
theorem reserve_daily_cap_invariant (maxTx dailyLimit : Int) :
    (∀ c a : Int, 0 < a → a ≤ maxTx → 0 < maxTx → 0 < dailyLimit →
      c + a > dailyLimit →
      reserveScript c a maxTx dailyLimit = (⟨0, c, 2⟩, c)) ∧
    (∀ (amounts : List Int) (c : Int), c ≤ dailyLimit →
      reserveAll maxTx dailyLimit amounts c ≤ dailyLimit) ∧
    (∀ c a₁ a₂ : Int, 0 < a₁ → 0 < a₂ → a₁ ≤ maxTx → a₂ ≤ maxTx →
      0 < dailyLimit → c + a₁ ≤ dailyLimit → c + a₂ ≤ dailyLimit →
      c + a₁ + a₂ > dailyLimit →
      (reserveScript c a₁ maxTx dailyLimit).1.ok = 1 ∧
      (reserveScript (reserveScript c a₁ maxTx dailyLimit).2 a₂ maxTx
        dailyLimit).1.ok = 0) := by
  refine ⟨?_, ?_, ?_⟩
  · intro c a h1 h2 h3 h4 h5
    simp only [reserveScript]
    rw [if_neg (by omega), if_neg (by omega), if_pos (by omega)]
  · intro amounts
    induction amounts with
    | nil => intro c h; simpa [reserveAll] using h
    | cons a rest ih =>
      intro c h
      have hstep := reserveScript_state_le maxTx dailyLimit c a h
      simpa [reserveAll] using ih _ hstep
  · intro c a₁ a₂ h1 h2 h3 h4 h5 h6 h7 h8
    have e1 : reserveScript c a₁ maxTx dailyLimit = (⟨1, c + a₁, 0⟩, c + a₁) := by
      simp only [reserveScript]
      rw [if_neg (by omega), if_neg (by omega), if_neg (by omega)]
    rw [e1]
    refine ⟨rfl, ?_⟩
    show (reserveScript (c + a₁) a₂ maxTx dailyLimit).1.ok = 0
    simp only [reserveScript]
    rw [if_neg (by omega), if_neg (by omega), if_pos (by omega)]

/-- Witness for `reserve_daily_cap_invariant` at caps 1000/5000. -/
theorem reserve_daily_cap_invariant_witness :
    reserveScript 4700 400 1000 5000 = (⟨0, 4700, 2⟩, 4700) ∧
    reserveAll 1000 5000 [500, 600, 900] 4000 ≤ 5000 ∧
    ((reserveScript 4200 500 1000 5000).1.ok = 1 ∧
      (reserveScript (reserveScript 4200 500 1000 5000).2 500 1000
        5000).1.ok = 0) := by
  refine ⟨?_, ?_, ?_⟩
  · exact (reserve_daily_cap_invariant 1000 5000).1 4700 400 (by decide)
      (by decide) (by decide) (by decide) (by decide)
  · exact (reserve_daily_cap_invariant 1000 5000).2.1 [500, 600, 900] 4000
      (by decide)
  · exact (reserve_daily_cap_invariant 1000 5000).2.2 4200 500 500 (by decide)
      (by decide) (by decide) (by decide) (by decide) (by decide) (by decide)
      (by decide)

/-- C6: a reserve call with `amount > perTxCap` (and otherwise valid
parameters) is rejected with code `TRANSACTION_TOO_LARGE`, the reported
`dailySpent` is the counter's current value at the time of the check, and
the counter is not mutated. -/
theorem reserveSpend_tx_too_large (a c : Int) (p : BudgetParams)
    (ha : 0 < a) (hm : 0 < p.maxTxSats) (hd : 0 < p.dailyBudgetSats)
    (hgt : a > p.maxTxSats) :
    reserveSpend a p c =
      (⟨false, c, p.dailyBudgetSats, some .TRANSACTION_TOO_LARGE⟩, c) := by
  have e : reserveScript c a p.maxTxSats p.dailyBudgetSats = (⟨0, c, 1⟩, c) := by
    simp only [reserveScript]
    rw [if_neg (by omega), if_pos (by omega)]
  simp only [reserveSpend]
  rw [if_neg (not_le.mpr ha), if_neg (not_le.mpr hm), if_neg (not_le.mpr hd)]
  simp [e]

/-- Witness for `reserveSpend_tx_too_large`. -/
theorem reserveSpend_tx_too_large_witness :
    reserveSpend 2000 ⟨1000, 5000⟩ 300 =
      (⟨false, 300, 5000, some .TRANSACTION_TOO_LARGE⟩, 300) :=
  reserveSpend_tx_too_large 2000 300 ⟨1000, 5000⟩ (by decide) (by decide)
    (by decide) (by decide)

/-- C7: a successful reserve of amount `a` followed by a release of the
same amount `a`, with no interleaved operations on the caller's counter,
returns the running total to its pre-reserve value. -/
theorem reserve_release_roundtrip (a c : Int) (p : BudgetParams)
    (h : (reserveSpend a p c).1.allowed = true) :
    releaseSpend a (reserveSpend a p c).2 = c := by
  unfold reserveSpend reserveScript at *
  split_ifs at * <;> simp_all [releaseSpend]

/-- Witness for `reserve_release_roundtrip`. -/
theorem reserve_release_roundtrip_witness :
    releaseSpend 500 (reserveSpend 500 ⟨1000, 5000⟩ 0).2 = 0 :=
  reserve_release_roundtrip 500 0 ⟨1000, 5000⟩ (by decide)

/-- C9: `releaseSpend` is an unconditional decrement with no lower bound:
it sets the counter to `current - amount` for every state and amount, so a
release larger than the reserved total drives the counter negative.
Concretely: from 0, reserving 500 (caps 1000/5000) succeeds; releasing
5500 drives the counter to -5000; afterwards ten reservations of 1000 sats
are all approved in the same day — 10000 sats of newly approved spend,
twice the 5000 daily cap. -/
theorem release_unbounded_negative_budget :
    (∀ c a : Int, releaseSpend a c = c - a) ∧
    ((reserveSpend 500 ⟨1000, 5000⟩ 0).1.allowed = true ∧
      (reserveSpend 500 ⟨1000, 5000⟩ 0).2 = 500) ∧
    releaseSpend 5500 500 = -5000 ∧
    (reserveSeqAllowed 1000 5000 (List.replicate 10 1000) (-5000) = true ∧
      (List.replicate 10 1000).sum = 10000 ∧
      reserveAll 1000 5000 (List.replicate 10 1000) (-5000) = 5000) := by
  exact ⟨fun c a => rfl, by decide, by decide, by decide⟩

/-! ## String helpers shared by the embeddings -/

/-- `pat.isPrefixOf`-at-some-position: JavaScript `hay.includes(pat)` on
character lists. -/
def listHasSubstr (pat : List Char) : List Char → Bool
  | [] => pat.isEmpty
  | c :: rest => pat.isPrefixOf (c :: rest) || listHasSubstr pat rest

/-- JavaScript `hay.includes(pat)`. -/
def strIncludes (hay pat : String) : Bool :=
  listHasSubstr pat.toList hay.toList

/-- JavaScript truthiness of an optional string: `undefined`/`null` and
`""` are falsy. -/
def strTruthy : Option String → Bool
  | none => false
  | some s => !(s == "")

/-! ## Payment confirmation polling (`src/app/api/l402/route.ts` and
`src/app/api/l402/status/route.ts`) -/

/-- The fields of a wallet `LightningSendRequest` consulted by the polling
loops. `paymentPreimage = none` models an absent SDK field. -/
structure LightningSendRequest where
  status : String
  paymentPreimage : Option String
deriving Repr, DecidableEq

/-- The statuses both polling loops treat as success. -/
def successStatuses : List String :=
  ["LIGHTNING_PAYMENT_SUCCEEDED", "TRANSFER_COMPLETED", "PREIMAGE_PROVIDED"]

/-- Outcome of `waitForPreimage`: `{ preimage }` or `{ error }`. -/
inductive PollResult where
  | preimage (p : String)
  | error (e : String)
deriving Repr, DecidableEq

def MAX_POLL_ATTEMPTS : Nat := 15

/-- The body of the `waitForPreimage` loop (src/app/api/l402/route.ts lines
103-128). `trace i` is what the `i`-th call to
`wallet.getLightningSendRequest(requestId)` returns; the 500 ms sleep has
no observable effect in the model. `fuel` counts the remaining attempts. -/
def waitForPreimageGo (trace : Nat → Option LightningSendRequest) :
    Nat → Nat → PollResult
  | 0, _ => .error "Timeout waiting for payment to complete"
  | fuel + 1, i =>
    match trace i with
    | none => .error "Payment request not found"
    | some r =>
      if successStatuses.contains r.status && strTruthy r.paymentPreimage then
        .preimage (r.paymentPreimage.getD "")
      else if r.status = "LIGHTNING_PAYMENT_FAILED" ∨
          r.status = "USER_TRANSFER_VALIDATION_FAILED" then
        .error ("Payment failed with status: " ++ r.status)
      else
        waitForPreimageGo trace fuel (i + 1)

/-- `waitForPreimage` with its 15-attempt budget. -/
def waitForPreimage (trace : Nat → Option LightningSendRequest) : PollResult :=
  waitForPreimageGo trace MAX_POLL_ATTEMPTS 0

/-- Outcome of the resume-polling loop of the status endpoint. -/
inductive StatusPollOutcome where
  | notFound
  | failed (status : String)
  | got (p : String)
  | stillPending
deriving Repr, DecidableEq

def STATUS_MAX_POLL_ATTEMPTS : Nat := 10

/-- The polling loop of `GET /api/l402/status` (src/app/api/l402/status/
route.ts lines 76-112): same structure as `waitForPreimage` with a
10-attempt budget; exhaustion leaves `preimage = null`, which the handler
turns into the `status: "pending"` response (`stillPending` here). -/
def statusPollGo (trace : Nat → Option LightningSendRequest) :
    Nat → Nat → StatusPollOutcome
  | 0, _ => .stillPending
  | fuel + 1, i =>
    match trace i with
    | none => .notFound
    | some r =>
      if successStatuses.contains r.status && strTruthy r.paymentPreimage then
        .got (r.paymentPreimage.getD "")
      else if r.status = "LIGHTNING_PAYMENT_FAILED" ∨
          r.status = "USER_TRANSFER_VALIDATION_FAILED" then
        .failed r.status
      else
        statusPollGo trace fuel (i + 1)

def statusPoll (trace : Nat → Option LightningSendRequest) : StatusPollOutcome :=
  statusPollGo trace STATUS_MAX_POLL_ATTEMPTS 0

/-- A success status is never one of the terminal failure statuses. -/
lemma successStatus_ne_failure {s : String}
    (h : successStatuses.contains s = true) :
    ¬(s = "LIGHTNING_PAYMENT_FAILED" ∨ s = "USER_TRANSFER_VALIDATION_FAILED") := by
  have hmem : s ∈ successStatuses := by simpa using h
  simp only [successStatuses, List.mem_cons, List.not_mem_nil, or_false] at hmem
  rcases hmem with h' | h' | h' <;> subst h' <;> decide

/-- If the `waitForPreimage` loop returns a preimage, some poll response
had a success status together with that (non-empty) preimage. -/
lemma waitForPreimageGo_preimage (trace : Nat → Option LightningSendRequest) :
    ∀ fuel i p, waitForPreimageGo trace fuel i = .preimage p →
      ∃ j, i ≤ j ∧ j < i + fuel ∧ ∃ r, trace j = some r ∧
        successStatuses.contains r.status = true ∧
        r.paymentPreimage = some p ∧ p ≠ "" := by
  intro fuel
  induction fuel with
  | zero => intro i p h; simp [waitForPreimageGo] at h
  | succ fuel ih =>
    intro i p h
    rw [waitForPreimageGo] at h
    cases htr : trace i with
    | none => simp only [htr] at h; exact PollResult.noConfusion h
    | some r =>
      simp only [htr] at h
      by_cases hc : (successStatuses.contains r.status &&
          strTruthy r.paymentPreimage) = true
      · rw [if_pos hc] at h
        obtain ⟨hmem, hpre⟩ := Bool.and_eq_true_iff.mp hc
        cases hpi : r.paymentPreimage with
        | none => rw [hpi] at hpre; simp [strTruthy] at hpre
        | some q =>
          rw [hpi] at hpre
          have hq : q ≠ "" := by
            simpa [strTruthy] using hpre
          have hqp : q = p := by
            rw [hpi] at h
            simpa [Option.getD] using h
          exact ⟨i, le_rfl, by omega, r, htr, hmem, by rw [hpi, hqp],
            hqp ▸ hq⟩
      · rw [if_neg hc] at h
        by_cases hf : (r.status = "LIGHTNING_PAYMENT_FAILED" ∨
            r.status = "USER_TRANSFER_VALIDATION_FAILED")
        · rw [if_pos hf] at h; simp at h
        · rw [if_neg hf] at h
          obtain ⟨j, hj1, hj2, hrest⟩ := ih (i + 1) p h
          exact ⟨j, by omega, by omega, hrest⟩

/-- If every poll response within the budget has a success status with no
truthy preimage, the loop exhausts and returns the timeout error. -/
lemma waitForPreimageGo_all_success_no_preimage
    (trace : Nat → Option LightningSendRequest) :
    ∀ fuel i,
      (∀ j, i ≤ j → j < i + fuel → ∃ r, trace j = some r ∧
        successStatuses.contains r.status = true ∧
        strTruthy r.paymentPreimage = false) →
      waitForPreimageGo trace fuel i =
        .error "Timeout waiting for payment to complete" := by
  intro fuel
  induction fuel with
  | zero => intro i _; rfl
  | succ fuel ih =>
    intro i hall
    obtain ⟨r, htr, hmem, hpre⟩ := hall i le_rfl (by omega)
    rw [waitForPreimageGo]
    simp only [htr]
    rw [if_neg (by simp [hmem, hpre])]
    rw [if_neg (successStatus_ne_failure hmem)]
    exact ih (i + 1) (fun j hj1 hj2 => hall j (by omega) (by omega))

/-- `statusPollGo` analogue of `waitForPreimageGo_preimage`. -/
lemma statusPollGo_got (trace : Nat → Option LightningSendRequest) :
    ∀ fuel i p, statusPollGo trace fuel i = .got p →
      ∃ j, i ≤ j ∧ j < i + fuel ∧ ∃ r, trace j = some r ∧
        successStatuses.contains r.status = true ∧
        r.paymentPreimage = some p ∧ p ≠ "" := by
  intro fuel
  induction fuel with
  | zero => intro i p h; simp [statusPollGo] at h
  | succ fuel ih =>
    intro i p h
    rw [statusPollGo] at h
    cases htr : trace i with
    | none => simp only [htr] at h; exact StatusPollOutcome.noConfusion h
    | some r =>
      simp only [htr] at h
      by_cases hc : (successStatuses.contains r.status &&
          strTruthy r.paymentPreimage) = true
      · rw [if_pos hc] at h
        obtain ⟨hmem, hpre⟩ := Bool.and_eq_true_iff.mp hc
        cases hpi : r.paymentPreimage with
        | none => rw [hpi] at hpre; simp [strTruthy] at hpre
        | some q =>
          rw [hpi] at hpre
          have hq : q ≠ "" := by
            simpa [strTruthy] using hpre
          have hqp : q = p := by
            rw [hpi] at h
            simpa [Option.getD] using h
          exact ⟨i, le_rfl, by omega, r, htr, hmem, by rw [hpi, hqp],
            hqp ▸ hq⟩
      · rw [if_neg hc] at h
        by_cases hf : (r.status = "LIGHTNING_PAYMENT_FAILED" ∨
            r.status = "USER_TRANSFER_VALIDATION_FAILED")
        · rw [if_pos hf] at h; simp at h
        · rw [if_neg hf] at h
          obtain ⟨j, hj1, hj2, hrest⟩ := ih (i + 1) p h
          exact ⟨j, by omega, by omega, hrest⟩

/-- `statusPollGo` analogue of `waitForPreimageGo_all_success_no_preimage`. -/
lemma statusPollGo_all_success_no_preimage
    (trace : Nat → Option LightningSendRequest) :
    ∀ fuel i,
      (∀ j, i ≤ j → j < i + fuel → ∃ r, trace j = some r ∧
        successStatuses.contains r.status = true ∧
        strTruthy r.paymentPreimage = false) →
      statusPollGo trace fuel i = .stillPending := by
  intro fuel
  induction fuel with
  | zero => intro i _; rfl
  | succ fuel ih =>
    intro i hall
    obtain ⟨r, htr, hmem, hpre⟩ := hall i le_rfl (by omega)
    rw [statusPollGo]
    simp only [htr]
    rw [if_neg (by simp [hmem, hpre])]
    rw [if_neg (successStatus_ne_failure hmem)]
    exact ih (i + 1) (fun j hj1 hj2 => hall j (by omega) (by omega))

/-- C4: both payment-confirmation polling loops confirm only when a poll
response carries a terminal success status together with a non-empty
preimage; a response whose status is a success status but whose preimage
is absent never terminates the loop with success, and if all responses
within the attempt budget are of that shape the loop ends in its timeout
outcome (`Timeout` error for `waitForPreimage`, the `pending` response for
the status endpoint's loop). -/
theorem poll_confirm_requires_preimage :
    (∀ (trace : Nat → Option LightningSendRequest) (p : String),
      waitForPreimage trace = .preimage p →
      ∃ i < MAX_POLL_ATTEMPTS, ∃ r, trace i = some r ∧
        successStatuses.contains r.status = true ∧
        r.paymentPreimage = some p ∧ p ≠ "") ∧
    (∀ trace,
      (∀ i < MAX_POLL_ATTEMPTS, ∃ r, trace i = some r ∧
        successStatuses.contains r.status = true ∧
        strTruthy r.paymentPreimage = false) →
      waitForPreimage trace = .error "Timeout waiting for payment to complete") ∧
    (∀ (trace : Nat → Option LightningSendRequest) (p : String),
      statusPoll trace = .got p →
      ∃ i < STATUS_MAX_POLL_ATTEMPTS, ∃ r, trace i = some r ∧
        successStatuses.contains r.status = true ∧
        r.paymentPreimage = some p ∧ p ≠ "") ∧
    (∀ trace,
      (∀ i < STATUS_MAX_POLL_ATTEMPTS, ∃ r, trace i = some r ∧
        successStatuses.contains r.status = true ∧
        strTruthy r.paymentPreimage = false) →
      statusPoll trace = .stillPending) := by
  refine ⟨?_, ?_, ?_, ?_⟩
  · intro trace p h
    obtain ⟨j, hj1, hj2, hrest⟩ := waitForPreimageGo_preimage trace
      MAX_POLL_ATTEMPTS 0 p h
    exact ⟨j, by omega, hrest⟩
  · intro trace hall
    exact waitForPreimageGo_all_success_no_preimage trace MAX_POLL_ATTEMPTS 0
      (fun j _ hj2 => hall j (by omega))
  · intro trace p h
    obtain ⟨j, hj1, hj2, hrest⟩ := statusPollGo_got trace
      STATUS_MAX_POLL_ATTEMPTS 0 p h
    exact ⟨j, by omega, hrest⟩
  · intro trace hall
    exact statusPollGo_all_success_no_preimage trace STATUS_MAX_POLL_ATTEMPTS 0
      (fun j _ hj2 => hall j (by omega))

/-- Witness for `poll_confirm_requires_preimage`: a wallet that forever
reports `LIGHTNING_PAYMENT_SUCCEEDED` with an empty preimage makes both
loops end in their timeout outcome, never in success. -/
theorem poll_confirm_requires_preimage_witness :
    waitForPreimage (fun _ => some ⟨"LIGHTNING_PAYMENT_SUCCEEDED", some ""⟩) =
      .error "Timeout waiting for payment to complete" ∧
    statusPoll (fun _ => some ⟨"LIGHTNING_PAYMENT_SUCCEEDED", none⟩) =
      .stillPending :=
  ⟨poll_confirm_requires_preimage.2.1 _
      (fun i _ => ⟨_, rfl, by decide, by decide⟩),
    poll_confirm_requires_preimage.2.2.2 _
      (fun i _ => ⟨_, rfl, by decide, by decide⟩)⟩

/-! ## Post-payment branch of the paywall flow
(`src/app/api/l402/route.ts` lines 390-463) -/

/-- The `PendingL402` record persisted by `storePendingL402`. -/
structure PendingL402 where
  paymentId : String
  macaroon : String
  url : String
  method : String
  headers : List (String × String)
  body : Option String
  priceSats : Option Nat
  createdAt : Nat
deriving Repr, DecidableEq

/-- The fields of `paymentResult` that the handler reads
(`paymentPreimage`, `id`, `status`), each possibly absent. -/
structure PaymentSubmitResult where
  paymentPreimage : Option String
  id : Option String
  status : Option String
deriving Repr, DecidableEq

/-- The response the post-payment branch produces. `paid` stands for the
cache-token-and-replay continuation entered once a preimage is in hand. -/
inductive L402Response where
  | pending
  | failed (code : String) (msg : String)
  | paid (preimage : String)
deriving Repr, DecidableEq

/-- Observable outcome of the post-payment branch: whether
`releaseSpend` was called, what `storePendingL402` persisted (if
anything; its random hex id is the opaque reference returned with the
`pending` response), and the response. -/
structure PostPaymentResult where
  released : Bool
  stored : Option PendingL402
  response : L402Response
deriving Repr, DecidableEq

/-- Lines 436-463: the `if (!preimage)` block and the paid continuation.
With a truthy preimage the flow proceeds to cache + replay (`paid`); with
no preimage but a truthy request id it persists a `PendingL402` and
returns `pending` without releasing; with neither it releases the
reservation and returns `L402_NO_PREIMAGE`. -/
def finishL402 (preimage : Option String) (pr : PaymentSubmitResult)
    (mac url method : String) (headers : List (String × String))
    (body : Option String) (priceSats : Option Nat) (now : Nat) :
    PostPaymentResult :=
  if strTruthy preimage then
    ⟨false, none, .paid (preimage.getD "")⟩
  else if strTruthy pr.id then
    ⟨false, some ⟨pr.id.getD "", mac, url, method, headers, body, priceSats, now⟩,
      .pending⟩
  else
    ⟨true, none, .failed "L402_NO_PREIMAGE" ""⟩

/-- Lines 397-463: if payment was initiated without a synchronous
preimage, poll via `waitForPreimage`; a poll error containing `"Timeout"`
persists a `PendingL402` and returns `pending` (reservation retained),
any other poll error releases the reservation and fails; otherwise the
flow falls through to `finishL402`. -/
def postPaymentFlow (pr : PaymentSubmitResult)
    (trace : Nat → Option LightningSendRequest)
    (mac url method : String) (headers : List (String × String))
    (body : Option String) (priceSats : Option Nat) (now : Nat) :
    PostPaymentResult :=
  if !strTruthy pr.paymentPreimage &&
      pr.status == some "LIGHTNING_PAYMENT_INITIATED" && strTruthy pr.id then
    match waitForPreimage trace with
    | .error e =>
      if strIncludes e "Timeout" then
        ⟨false, some ⟨pr.id.getD "", mac, url, method, headers, body, priceSats,
          now⟩, .pending⟩
      else
        ⟨true, none, .failed "L402_PAYMENT_FAILED" e⟩
    | .preimage p => finishL402 (some p) pr mac url method headers body priceSats now
  else
    finishL402 pr.paymentPreimage pr mac url method headers body priceSats now

/-- C2: on the slow path (payment initiated, no synchronous preimage, a
request id to poll), if the bounded poll exhausts with the timeout error
the engine does not release the reservation, persists a `PendingL402`
carrying the payment reference, macaroon and original request, and
returns the `pending` response; a non-timeout poll error releases the
reservation and fails; and the reservation is released only when the poll
ended in a non-timeout error. -/
theorem timeout_pending_retains_reservation
    (pr : PaymentSubmitResult) (trace : Nat → Option LightningSendRequest)
    (mac url method : String) (headers : List (String × String))
    (body : Option String) (priceSats : Option Nat) (now : Nat)
    (hpre : strTruthy pr.paymentPreimage = false)
    (hstat : pr.status = some "LIGHTNING_PAYMENT_INITIATED")
    (hid : strTruthy pr.id = true) :
    (waitForPreimage trace = .error "Timeout waiting for payment to complete" →
      postPaymentFlow pr trace mac url method headers body priceSats now =
        ⟨false, some ⟨pr.id.getD "", mac, url, method, headers, body, priceSats,
          now⟩, .pending⟩) ∧
    (∀ e, waitForPreimage trace = .error e → strIncludes e "Timeout" = false →
      postPaymentFlow pr trace mac url method headers body priceSats now =
        ⟨true, none, .failed "L402_PAYMENT_FAILED" e⟩) ∧
    ((postPaymentFlow pr trace mac url method headers body priceSats
        now).released = true →
      ∃ e, waitForPreimage trace = .error e ∧ strIncludes e "Timeout" = false) := by
  have hcond : (!strTruthy pr.paymentPreimage &&
      pr.status == some "LIGHTNING_PAYMENT_INITIATED" && strTruthy pr.id) = true := by
    simp [hpre, hstat, hid]
  refine ⟨?_, ?_, ?_⟩
  · intro hw
    unfold postPaymentFlow
    rw [if_pos hcond]
    simp only [hw]
    rw [if_pos (by decide)]
  · intro e hw hto
    unfold postPaymentFlow
    rw [if_pos hcond]
    simp only [hw]
    rw [if_neg (by simp [hto])]
  · intro hrel
    unfold postPaymentFlow at hrel
    rw [if_pos hcond] at hrel
    cases hw : waitForPreimage trace with
    | preimage p =>
      simp only [hw] at hrel
      unfold finishL402 at hrel
      split_ifs at hrel
    | error e =>
      simp only [hw] at hrel
      by_cases hto : strIncludes e "Timeout" = true
      · rw [if_pos hto] at hrel
        simp at hrel
      · rw [if_neg hto] at hrel
        exact ⟨e, rfl, by simpa using hto⟩

/-- Witness for `timeout_pending_retains_reservation`: a wallet stuck at
`LIGHTNING_PAYMENT_INITIATED` for all 15 polls yields the stored pending
record and the `pending` response with no release. -/
theorem timeout_pending_retains_reservation_witness :
    postPaymentFlow ⟨none, some "req1", some "LIGHTNING_PAYMENT_INITIATED"⟩
        (fun _ => some ⟨"LIGHTNING_PAYMENT_INITIATED", none⟩)
        "mac1" "https://api.example.com/joke" "GET" [] none (some 100) 42 =
      ⟨false, some ⟨"req1", "mac1", "https://api.example.com/joke", "GET", [],
        none, some 100, 42⟩, .pending⟩ :=
  (timeout_pending_retains_reservation
      ⟨none, some "req1", some "LIGHTNING_PAYMENT_INITIATED"⟩
      (fun _ => some ⟨"LIGHTNING_PAYMENT_INITIATED", none⟩)
      "mac1" "https://api.example.com/joke" "GET" [] none (some 100) 42
      (by decide) rfl (by decide)).1 (by decide)

/-! ## Invoice decoding and budget reservation
(`src/app/api/l402/route.ts` lines 330-367) -/

/-- A section of a decoded BOLT11 invoice as used by the handler: its
`name` and, when the `value` key is present, its millisatoshi value.
`value = none` models a section without a `value` key; the handler also
treats a falsy value (`0`) as absent. -/
structure InvoiceSection where
  name : String
  value : Option Nat
deriving Repr, DecidableEq

/-- `decoded.sections.find((s) => s.name === "amount")`. -/
def findAmountSection (sections : List InvoiceSection) : Option InvoiceSection :=
  sections.find? (fun s => s.name == "amount")

/-- JavaScript truthiness of the amount section's value: a present,
non-zero millisatoshi value. -/
def amountTruthy : Option InvoiceSection → Bool
  | none => false
  | some s =>
    match s.value with
    | none => false
    | some v => v != 0

/-- Step 3 of the paywall flow: decode the invoice and extract its
embedded amount. The input is the outcome of `decode(challenge.invoice)`
(`.error` models a decoder throw); both the throw and a missing/falsy
amount map to `L402_INVALID_CHALLENGE` errors, otherwise the amount is
converted from millisatoshis with `Math.ceil`. -/
def decodeInvoiceAmountSats (decoded : Except Unit (List InvoiceSection)) :
    Except String Nat :=
  match decoded with
  | .error _ => .error "Failed to decode L402 invoice"
  | .ok sections =>
    match findAmountSection sections with
    | none =>
      .error "L402 invoice has no amount — amountless invoices are not supported"
    | some s =>
      match s.value with
      | none =>
        .error "L402 invoice has no amount — amountless invoices are not supported"
      | some v =>
        if v = 0 then
          .error "L402 invoice has no amount — amountless invoices are not supported"
        else
          .ok ((v + 999) / 1000)

/-- Outcome of the decode-then-reserve segment. `invalidChallenge` means
the handler returned `L402_INVALID_CHALLENGE` without calling reserve. -/
inductive DecodeReserveOutcome where
  | invalidChallenge (msg : String)
  | reserveRejected (code : ReserveCode) (total : Int)
  | reserved (total : Int)
deriving Repr, DecidableEq

/-- The amount `reserveSpend` was invoked with, if it was invoked. -/
def reserveAmountOf : DecodeReserveOutcome → Option Int
  | .invalidChallenge _ => none
  | .reserveRejected _ t => some t
  | .reserved t => some t

/-- Steps 3-4 of the paywall flow on the caller's budget counter
`counter`: decode the embedded amount (rejecting on failure before any
budget call), add the wallet fee estimate — falling back to the caller's
`maxFeeSats` when `wallet.getLightningSendFeeEstimate` threw — and
reserve `invoiceAmountSats + feeEstimate`. -/
def l402DecodeAndReserve (decoded : Except Unit (List InvoiceSection))
    (feeEstimateResult : Option Nat) (maxFeeSats : Nat)
    (params : BudgetParams) (counter : Int) : DecodeReserveOutcome × Int :=
  match decodeInvoiceAmountSats decoded with
  | .error msg => (.invalidChallenge msg, counter)
  | .ok invoiceAmountSats =>
    let feeEstimate := feeEstimateResult.getD maxFeeSats
    let estimatedTotal : Int := (invoiceAmountSats : Int) + (feeEstimate : Int)
    let r := reserveSpend estimatedTotal params counter
    if r.1.allowed then (.reserved estimatedTotal, r.2)
    else (.reserveRejected (r.1.code.getD .INVALID_AMOUNT) estimatedTotal, r.2)

/-- C5: an invoice with no embedded amount (no amount section, no `value`
key, or a falsy value) makes decoding return the no-amount
`L402_INVALID_CHALLENGE` error; on every decode error the handler returns
`invalidChallenge` without invoking reserve and the budget counter is
untouched; and when an amount is present the amount reserved is exactly
the decoded embedded amount (millisatoshis, `Math.ceil`-ed to sats) plus
the fee estimate — never a caller-supplied price. -/
theorem amountless_invoice_no_reserve :
    (∀ sections, amountTruthy (findAmountSection sections) = false →
      decodeInvoiceAmountSats (.ok sections) =
        .error "L402 invoice has no amount — amountless invoices are not supported") ∧
    (∀ decoded msg feeEstimateResult maxFeeSats params counter,
      decodeInvoiceAmountSats decoded = .error msg →
      l402DecodeAndReserve decoded feeEstimateResult maxFeeSats params counter =
        (.invalidChallenge msg, counter)) ∧
    (∀ sections s v, findAmountSection sections = some s → s.value = some v →
      v ≠ 0 →
      decodeInvoiceAmountSats (.ok sections) = .ok ((v + 999) / 1000)) ∧
    (∀ decoded amt feeEstimateResult maxFeeSats params counter,
      decodeInvoiceAmountSats decoded = .ok amt →
      reserveAmountOf (l402DecodeAndReserve decoded feeEstimateResult maxFeeSats
          params counter).1 =
        some ((amt : Int) + (feeEstimateResult.getD maxFeeSats : Int))) := by
  refine ⟨?_, ?_, ?_, ?_⟩
  · intro sections h
    cases hf : findAmountSection sections with
    | none => simp [decodeInvoiceAmountSats, hf]
    | some s =>
      cases hv : s.value with
      | none => simp [decodeInvoiceAmountSats, hf, hv]
      | some v =>
        have hv0 : v = 0 := by
          simp only [amountTruthy, hf, hv] at h
          simpa using h
        simp [decodeInvoiceAmountSats, hf, hv, hv0]
  · intro decoded msg feeEstimateResult maxFeeSats params counter h
    simp only [l402DecodeAndReserve, h]
  · intro sections s v hf hv hne
    simp [decodeInvoiceAmountSats, hf, hv, hne]
  · intro decoded amt feeEstimateResult maxFeeSats params counter h
    simp only [l402DecodeAndReserve, h]
    split_ifs <;> rfl

/-- Witness for `amountless_invoice_no_reserve`: an invoice whose only
sections lack an amount is rejected with no reserve call and an untouched
counter; one with a 2_500_000 msat amount reserves 2500 + 10 sats. -/
theorem amountless_invoice_no_reserve_witness :
    decodeInvoiceAmountSats (.ok [⟨"payment_hash", none⟩]) =
      .error "L402 invoice has no amount — amountless invoices are not supported" ∧
    l402DecodeAndReserve (.ok [⟨"payment_hash", none⟩]) none 10 ⟨1000, 5000⟩ 0 =
      (.invalidChallenge
        "L402 invoice has no amount — amountless invoices are not supported", 0) ∧
    reserveAmountOf (l402DecodeAndReserve
        (.ok [⟨"amount", some 2500000⟩]) none 10 ⟨10000, 50000⟩ 0).1 =
      some 2510 :=
  ⟨amountless_invoice_no_reserve.1 [⟨"payment_hash", none⟩] (by decide),
    amountless_invoice_no_reserve.2.1 (.ok [⟨"payment_hash", none⟩]) _ none 10
      ⟨1000, 5000⟩ 0
      (amountless_invoice_no_reserve.1 [⟨"payment_hash", none⟩] (by decide)),
    amountless_invoice_no_reserve.2.2.2 (.ok [⟨"amount", some 2500000⟩]) 2500
      none 10 ⟨10000, 50000⟩ 0
      (amountless_invoice_no_reserve.2.2.1 [⟨"amount", some 2500000⟩]
        ⟨"amount", some 2500000⟩ 2500000 (by decide) rfl (by decide))⟩

/-! ## Stale-leaf recovery (`src/lib/leaves.ts`) -/

def STALE_LEAF_ERROR_PATTERNS : List String :=
  ["refund transaction sequence must be less than or equal to",
    "validating refresh timelock failed",
    "Failed to request leaves swap"]

/-- `isStaleLeafError` (src/lib/leaves.ts lines 13-17): substring match of
the error message against the known patterns. `none` models a falsy
thrown value (`if (!err) return false`); otherwise the error is its
message string. -/
def isStaleLeafError : Option String → Bool
  | none => false
  | some message =>
    STALE_LEAF_ERROR_PATTERNS.any (fun pattern => strIncludes message pattern)

/-- Wallet state visible to `consolidateLeaves`: the balance in sats. -/
structure WalletState where
  balance : Int
deriving Repr, DecidableEq

/-- `consolidateLeaves` (src/lib/leaves.ts lines 24-43): a non-positive
balance is a no-op returning `false`; otherwise the full balance is
self-transferred (the returned list records the transfers performed) and
it returns `true`. -/
def consolidateLeaves (w : WalletState) : Bool × List Int :=
  if w.balance ≤ 0 then (false, [])
  else (true, [w.balance])

/-- Observable run of `withStaleLeafRecovery`: the final result, how many
times `operation` was invoked, and the self-transfers performed. -/
structure RecoveryTrace (α : Type) where
  result : Except String α
  attempts : Nat
  transfers : List Int
deriving Repr

/-- `withStaleLeafRecovery` (src/lib/leaves.ts lines 49-67). `op n` is the
outcome of the `(n+1)`-th invocation of `operation`; a thrown error is its
message. The retry inside the catch block is not itself guarded, so its
error propagates. -/
def withStaleLeafRecovery {α : Type} (op : Nat → Except String α)
    (w : WalletState) : RecoveryTrace α :=
  match op 0 with
  | .ok v => ⟨.ok v, 1, []⟩
  | .error e =>
    if isStaleLeafError (some e) then
      let c := consolidateLeaves w
      if c.1 then ⟨op 1, 2, c.2⟩
      else ⟨.error e, 1, c.2⟩
    else ⟨.error e, 1, []⟩

/-- C3: if the first attempt fails with a stale-leaf error and the balance
is positive, the engine self-transfers the full balance and runs the
operation exactly once more, propagating that second attempt's result
(success or error) as-is; with a non-positive balance, consolidation does
nothing and the original error is re-raised after a single attempt; a
non-stale-leaf error is re-raised after a single attempt with no
transfer. -/
theorem stale_leaf_recovery_retries_once {α : Type}
    (op : Nat → Except String α) (w : WalletState) (e : String)
    (hfail : op 0 = .error e) :
    (isStaleLeafError (some e) = true → 0 < w.balance →
      withStaleLeafRecovery op w = ⟨op 1, 2, [w.balance]⟩) ∧
    (isStaleLeafError (some e) = true → w.balance ≤ 0 →
      withStaleLeafRecovery op w = ⟨.error e, 1, []⟩) ∧
    (isStaleLeafError (some e) = false →
      withStaleLeafRecovery op w = ⟨.error e, 1, []⟩) := by
  refine ⟨?_, ?_, ?_⟩
  · intro hstale hbal
    unfold withStaleLeafRecovery
    simp only [hfail, hstale, if_true]
    simp [consolidateLeaves, not_le.mpr hbal]
  · intro hstale hbal
    unfold withStaleLeafRecovery
    simp only [hfail, hstale, if_true]
    simp [consolidateLeaves, hbal]
  · intro hstale
    unfold withStaleLeafRecovery
    simp only [hfail, hstale]
    simp

/-- Witness for `stale_leaf_recovery_retries_once`: a first attempt that
throws the refresh-timelock error over a 100-sat wallet consolidates 100
sats and returns the second attempt's value. -/
theorem stale_leaf_recovery_retries_once_witness :
    withStaleLeafRecovery
        (fun n => if n = 0 then .error "validating refresh timelock failed"
          else .ok (7 : Nat))
        ⟨100⟩ =
      ⟨.ok 7, 2, [100]⟩ :=
  (stale_leaf_recovery_retries_once
      (fun n => if n = 0 then .error "validating refresh timelock failed"
        else .ok (7 : Nat))
      ⟨100⟩ "validating refresh timelock failed" rfl).1 (by decide) (by decide)

/-! ## Token verification (`src/lib/auth.ts`) -/

/-- The roles accepted for Redis-stored tokens. -/
def validRoles : List String := ["admin", "invoice", "pay-only", "read-only"]

/-- A stored token record as read from the token hash (`label` and
`createdAt` are not consulted by `verifyAuth` and omitted). -/
structure TokenData where
  role : String
  maxTxSats : Option Int
  dailyBudgetSats : Option Int
deriving Repr, DecidableEq

/-- The `AuthResult` produced by `verifyAuth`. -/
structure AuthResult where
  role : String
  tokenId : String
  maxTxSats : Int
  dailyBudgetSats : Int
deriving Repr, DecidableEq

/-- `safeCompare` (src/lib/auth.ts lines 36-39): a length check followed
by `timingSafeEqual`, which on equal-length buffers is byte equality. -/
def safeCompare (a b : String) : Bool :=
  if a.length ≠ b.length then false else a == b

/-- Removes the first occurrence of `pat` from the list, JavaScript
`String.replace(pat, "")` with a string pattern. -/
def removeFirstOccur (pat : List Char) : List Char → List Char
  | [] => []
  | c :: rest =>
    if pat.isPrefixOf (c :: rest) then (c :: rest).drop pat.length
    else c :: removeFirstOccur pat rest

/-- `authHeader.replace("Bearer ", "")`. -/
def extractToken (header : String) : String :=
  ⟨removeFirstOccur "Bearer ".toList header.toList⟩

/-- The env-admin check of `verifyAuth` (lines 60-67): `envToken` must be
truthy and `safeCompare(token, envToken)` must hold. -/
def envTokenMatches (token : String) : Option String → Bool
  | none => false
  | some e => !(e == "") && safeCompare token e

/-- `verifyAuth` (src/lib/auth.ts lines 48-90). Inputs: the request's
`authorization` header (`none` = absent), the `API_AUTH_TOKEN` environment
value, the outcome of the Redis `hget` for the presented token
(`.error ()` models a thrown lookup or JSON parse, caught by the
`try/catch` and falling through to rejection), and the default limits. -/
def verifyAuth : Option String → Option String →
    Except Unit (Option TokenData) → Int → Int → Option AuthResult
  | none, _, _, _, _ => none
  | some h, envToken, storeLookup, defaultMaxTx, defaultDaily =>
    let token := extractToken h
    if token = "" then none
    else if envTokenMatches token envToken then
      some ⟨"admin", "env", defaultMaxTx, defaultDaily⟩
    else
      match storeLookup with
      | .error _ => none
      | .ok none => none
      | .ok (some data) =>
        if validRoles.contains data.role then
          some ⟨data.role, (token.take 16), data.maxTxSats.getD defaultMaxTx,
            data.dailyBudgetSats.getD defaultDaily⟩
        else none

/-- C10: authentication fails closed on store failure — when the presented
token does not match the environment admin token, a token-store lookup
that throws or finds nothing makes `verifyAuth` return `none` — while a
token matching the environment admin token (validated by `safeCompare`
alone) authenticates as admin for every store outcome, including a
throwing store. Moreover `safeCompare` decides exactly string equality. -/
theorem verifyAuth_fails_closed :
    (∀ (header : String) (envToken : Option String)
        (store : Except Unit (Option TokenData)) (dmx ddy : Int),
      (store = .error () ∨ store = .ok none) →
      envTokenMatches (extractToken header) envToken = false →
      verifyAuth (some header) envToken store dmx ddy = none) ∧
    (∀ (header : String) (envToken : Option String)
        (store : Except Unit (Option TokenData)) (dmx ddy : Int),
      extractToken header ≠ "" →
      envTokenMatches (extractToken header) envToken = true →
      verifyAuth (some header) envToken store dmx ddy =
        some ⟨"admin", "env", dmx, ddy⟩) ∧
    (∀ a b : String, safeCompare a b = (a == b)) := by
  refine ⟨?_, ?_, ?_⟩
  · intro header envToken store dmx ddy hstore henv
    simp only [verifyAuth]
    by_cases ht : extractToken header = ""
    · rw [if_pos ht]
    · rw [if_neg ht, if_neg (by simp [henv])]
      rcases hstore with h | h <;> subst h <;> rfl
  · intro header envToken store dmx ddy ht henv
    simp only [verifyAuth]
    rw [if_neg ht, if_pos henv]
  · intro a b
    unfold safeCompare
    by_cases hl : a.length = b.length
    · rw [if_neg (by simp [hl])]
    · rw [if_pos hl]
      have hne : (a == b) = false := by
        rw [beq_eq_false_iff_ne]
        intro hab
        exact hl (congrArg String.length hab)
      rw [hne]

/-- Witness for `verifyAuth_fails_closed`: with a throwing store, a
non-admin token is rejected while the env admin token authenticates. -/
theorem verifyAuth_fails_closed_witness :
    verifyAuth (some "Bearer storetok") (some "admintok") (.error ())
      10000 100000 = none ∧
    verifyAuth (some "Bearer admintok") (some "admintok") (.error ())
      10000 100000 = some ⟨"admin", "env", 10000, 100000⟩ :=
  ⟨verifyAuth_fails_closed.1 "Bearer storetok" (some "admintok") (.error ())
      10000 100000 (Or.inl rfl) (by decide),
    verifyAuth_fails_closed.2.1 "Bearer admintok" (some "admintok") (.error ())
      10000 100000 (by decide) (by decide)⟩

/-! ## Domain-scoped L402 token cache
(`src/app/api/l402/route.ts` lines 31-67)

All cached tokens live in the single Redis hash `spark:l402_tokens`.
`cacheToken` does an `HSET` of the domain's field and then `EXPIRE`s the
whole hash 24h from now; `getCachedToken` is a plain `HGET` that never
inspects `cachedAt`. The state is modelled as `none` (key absent) or
`some (expiresAt, fields)`; times are in seconds. An expired key is
treated as absent by every operation. -/

/-- `CachedL402Token` as stored in the hash. -/
structure CachedL402Token where
  macaroon : String
  preimage : String
  cachedAt : Nat
deriving Repr, DecidableEq

/-- The Redis hash `spark:l402_tokens`: absent, or its expiry time and
domain-keyed fields. -/
def TokenCacheState : Type :=
  Option (Nat × List (String × CachedL402Token))

def L402_TOKEN_TTL : Nat := 24 * 60 * 60

/-- A key whose expiry has passed is gone. -/
def cacheLive (st : TokenCacheState) (now : Nat) : TokenCacheState :=
  match st with
  | none => none
  | some (expiresAt, fields) =>
    if now < expiresAt then some (expiresAt, fields) else none

/-- `HSET` semantics on the field list: overwrite the domain's field. -/
def setField (domain : String) (tok : CachedL402Token)
    (fields : List (String × CachedL402Token)) :
    List (String × CachedL402Token) :=
  (domain, tok) :: fields.filter (fun f => !(f.1 == domain))

/-- `cacheToken` (lines 55-63): `HSET` the domain's token (with
`cachedAt = now`), then `EXPIRE` the whole hash `L402_TOKEN_TTL` from
now — resetting the hash's TTL on every write, for every domain. -/
def cacheToken (st : TokenCacheState) (domain macaroon preimage : String)
    (now : Nat) : TokenCacheState :=
  let fields :=
    match cacheLive st now with
    | none => []
    | some (_, fields) => fields
  some (now + L402_TOKEN_TTL, setField domain ⟨macaroon, preimage, now⟩ fields)

/-- `getCachedToken` (lines 49-53): `HGET` of the domain's field; the
stored `cachedAt` is returned but never checked against any TTL. -/
def getCachedToken (st : TokenCacheState) (domain : String) (now : Nat) :
    Option CachedL402Token :=
  match cacheLive st now with
  | none => none
  | some (_, fields) =>
    (fields.find? (fun f => f.1 == domain)).map (fun f => f.2)

/-- `deleteCachedToken` (lines 65-67): `HDEL` of the domain's field; the
hash's TTL is untouched. -/
def deleteCachedToken (st : TokenCacheState) (domain : String) (now : Nat) :
    TokenCacheState :=
  match cacheLive st now with
  | none => none
  | some (expiresAt, fields) =>
    some (expiresAt, fields.filter (fun f => !(f.1 == domain)))

/-- The cache operations a request sequence can perform. -/
inductive CacheOp where
  | cache (domain macaroon preimage : String) (time : Nat)
  | del (domain : String) (time : Nat)
deriving Repr, DecidableEq

/-- Run a sequence of cache operations. -/
def applyCacheOps : List CacheOp → TokenCacheState → TokenCacheState
  | [], st => st
  | .cache d m p t :: rest, st => applyCacheOps rest (cacheToken st d m p t)
  | .del d t :: rest, st => applyCacheOps rest (deleteCachedToken st d t)

/-- Unfolding `cacheToken`: the resulting expiry is 24h from the write. -/
lemma cacheToken_eq_some (st : TokenCacheState) (d m p : String) (t : Nat)
    (expiresAt : Nat) (fields : List (String × CachedL402Token))
    (h : cacheToken st d m p t = some (expiresAt, fields)) :
    expiresAt = t + L402_TOKEN_TTL := by
  simp only [cacheToken] at h
  injection h with h'
  injection h' with h1 h2
  exact h1.symm

/-- Unfolding `deleteCachedToken`: a surviving hash had the same expiry
before the delete. -/
lemma deleteCachedToken_eq_some (st : TokenCacheState) (d : String) (t : Nat)
    (expiresAt : Nat) (fields : List (String × CachedL402Token))
    (h : deleteCachedToken st d t = some (expiresAt, fields)) :
    ∃ fields0, st = some (expiresAt, fields0) := by
  cases st with
  | none => simp [deleteCachedToken, cacheLive] at h
  | some pr =>
    obtain ⟨e0, f0⟩ := pr
    by_cases ht : t < e0
    · refine ⟨f0, ?_⟩
      simp only [deleteCachedToken, cacheLive, if_pos ht] at h
      injection h with h'
      injection h' with h1 h2
      rw [h1]
    · simp [deleteCachedToken, cacheLive, ht] at h

/-- A live hash's expiry always stems from some cache write in the
sequence: `expiresAt = writeTime + TTL`. -/
lemma applyCacheOps_expiry (ops : List CacheOp) :
    ∀ (st : TokenCacheState) (expiresAt : Nat) fields,
      applyCacheOps ops st = some (expiresAt, fields) →
      (∃ d m p t, CacheOp.cache d m p t ∈ ops ∧
        expiresAt = t + L402_TOKEN_TTL) ∨
      (∃ fields0, st = some (expiresAt, fields0)) := by
  induction ops with
  | nil =>
    intro st expiresAt fields h
    exact Or.inr ⟨fields, h⟩
  | cons op rest ih =>
    intro st expiresAt fields h
    cases op with
    | cache d m p t =>
      rcases ih (cacheToken st d m p t) expiresAt fields h with
        ⟨d', m', p', t', hmem, he⟩ | ⟨fields0, hst⟩
      · exact Or.inl ⟨d', m', p', t', List.mem_cons_of_mem _ hmem, he⟩
      · exact Or.inl ⟨d, m, p, t, List.mem_cons_self _ _,
          cacheToken_eq_some st d m p t expiresAt fields0 hst⟩
    | del d t =>
      rcases ih (deleteCachedToken st d t) expiresAt fields h with
        ⟨d', m', p', t', hmem, he⟩ | ⟨fields0, hst⟩
      · exact Or.inl ⟨d', m', p', t', List.mem_cons_of_mem _ hmem, he⟩
      · exact Or.inr (deleteCachedToken_eq_some st d t expiresAt fields0 hst)

/-- C8 counterexample: caching a token for `b.example` 23h after one for
`a.example` resets the shared hash TTL, so at hour 25 the lookup for
`a.example` still returns the token cached 25h earlier — the flow does
not fall back to a fresh pay cycle. -/
theorem token_cache_ttl_counterexample :
    getCachedToken
        (cacheToken (cacheToken none "a.example" "macA" "preA" 0)
          "b.example" "macB" "preB" 82800)
        "a.example" 90000 =
      some ⟨"macA", "preA", 0⟩ ∧
    90000 > 0 + L402_TOKEN_TTL := by
  constructor
  · rfl
  · decide

/-- C8 (amended): a cached token can be returned only while the token
hash is within 24h of the most recent `cacheToken` write: every lookup
that yields a token implies some `cacheToken` write — for any domain —
happened less than 24h before the lookup. Per-domain age is never
checked, so a token older than 24h survives as long as later writes keep
refreshing the shared hash TTL. -/
theorem token_cache_ttl_amended (ops : List CacheOp) (domain : String)
    (now : Nat) (tok : CachedL402Token)
    (h : getCachedToken (applyCacheOps ops none) domain now = some tok) :
    ∃ d m p t, CacheOp.cache d m p t ∈ ops ∧ now < t + L402_TOKEN_TTL := by
  cases hsf : applyCacheOps ops none with
  | none =>
    rw [hsf] at h
    simp [getCachedToken, cacheLive] at h
  | some pr =>
    obtain ⟨e0, f0⟩ := pr
    rw [hsf] at h
    by_cases ht : now < e0
    · rcases applyCacheOps_expiry ops none e0 f0 hsf with
        ⟨d', m', p', t', hmem, he⟩ | ⟨fields0, hst⟩
      · exact ⟨d', m', p', t', hmem, he ▸ ht⟩
      · exact Option.noConfusion hst
    · exfalso
      simp [getCachedToken, cacheLive, ht] at h

/-- Witness for `token_cache_ttl_amended`: a single fresh write makes the
lookup succeed, and indeed that write is less than 24h old. -/
theorem token_cache_ttl_amended_witness :
    ∃ d m p t,
      CacheOp.cache d m p t ∈ [CacheOp.cache "a.example" "macA" "preA" 0] ∧
      (100 : Nat) < t + L402_TOKEN_TTL :=
  token_cache_ttl_amended [CacheOp.cache "a.example" "macA" "preA" 0]
    "a.example" 100 ⟨"macA", "preA", 0⟩ rfl

end SparkProxy
